import Mathlib

set_option autoImplicit false

namespace Insc

/-!
Shallow embedding of the enrollment microservice core
(`app/core/circuit_breaker.py`, `app/core/saga_pattern.py`, `app/tasks.py`,
`app/routers/queue.py`, `app/idempotency.py`).

Machine timestamps (`time.time()`) are modelled as `Int`; clock readings are
passed explicitly to the operations that read the clock in the source.
-/

/-! ### Circuit breaker (`app/core/circuit_breaker.py`) -/

inductive CircuitState where
  | closed
  | opened
  | halfOpen
deriving DecidableEq, Repr

structure CircuitBreakerConfig where
  failure_threshold : Nat := 5
  recovery_timeout : Int := 60
  success_threshold : Nat := 3
deriving DecidableEq, Repr

structure CircuitBreakerStats where
  failure_count : Nat := 0
  success_count : Nat := 0
  last_failure_time : Option Int := none
  last_success_time : Option Int := none
  consecutive_successes : Nat := 0
  consecutive_failures : Nat := 0
deriving DecidableEq, Repr

structure CircuitBreaker where
  config : CircuitBreakerConfig
  state : CircuitState := .closed
  stats : CircuitBreakerStats := {}
deriving DecidableEq, Repr

/-- Python truthiness of `self.stats.last_failure_time` (a float or `None`):
`None` and `0` are falsy. -/
def timeTruthy : Option Int → Bool
  | none => false
  | some t => t != 0

/-- `CircuitBreaker._check_state`: in `OPEN`, move to `HALF_OPEN` once
`recovery_timeout` has elapsed since the last failure, otherwise reject the
call (`CircuitBreakerException`); any other state admits the call. -/
def checkState (cb : CircuitBreaker) (now : Int) : Except Unit CircuitBreaker :=
  match cb.state with
  | .opened =>
    if timeTruthy cb.stats.last_failure_time &&
        decide (cb.config.recovery_timeout ≤ now - cb.stats.last_failure_time.getD 0) then
      .ok { cb with state := .halfOpen,
                    stats := { cb.stats with consecutive_successes := 0 } }
    else
      .error ()
  | _ => .ok cb

/-- Stats update performed at the start of `CircuitBreaker._on_success`. -/
def succStats (s : CircuitBreakerStats) (now : Int) : CircuitBreakerStats :=
  { s with success_count := s.success_count + 1,
           consecutive_successes := s.consecutive_successes + 1,
           consecutive_failures := 0,
           last_success_time := some now }

/-- `CircuitBreaker._on_success`. -/
def onSuccess (cb : CircuitBreaker) (now : Int) : CircuitBreaker :=
  if cb.state = .halfOpen ∧
      cb.config.success_threshold ≤ (succStats cb.stats now).consecutive_successes then
    { cb with stats := succStats cb.stats now, state := .closed }
  else
    { cb with stats := succStats cb.stats now }

/-- Stats update performed at the start of `CircuitBreaker._on_failure`. -/
def failStats (s : CircuitBreakerStats) (now : Int) : CircuitBreakerStats :=
  { s with failure_count := s.failure_count + 1,
           consecutive_failures := s.consecutive_failures + 1,
           consecutive_successes := 0,
           last_failure_time := some now }

/-- `CircuitBreaker._on_failure`. -/
def onFailure (cb : CircuitBreaker) (now : Int) : CircuitBreaker :=
  if cb.state = .closed ∧
      cb.config.failure_threshold ≤ (failStats cb.stats now).consecutive_failures then
    { cb with stats := failStats cb.stats now, state := .opened }
  else if cb.state = .halfOpen then
    { cb with stats := failStats cb.stats now, state := .opened }
  else
    { cb with stats := failStats cb.stats now }

/-- `CircuitBreaker.call`, with the guarded operation abstracted by its outcome
`opSucceeds`.  Returns the new breaker, whether the operation was invoked, and
whether the call succeeded (a rejected call is `(cb, false, false)`). -/
def callBreaker (cb : CircuitBreaker) (now : Int) (opSucceeds : Bool) :
    CircuitBreaker × Bool × Bool :=
  match checkState cb now with
  | .error () => (cb, false, false)
  | .ok cb1 =>
    if opSucceeds then (onSuccess cb1 now, true, true)
    else (onFailure cb1 now, true, false)

/-- A sequence of failures recorded at the given times. -/
def onFailureSeq (cb : CircuitBreaker) (ts : List Int) : CircuitBreaker :=
  ts.foldl onFailure cb

/-- A sequence of successes recorded at the given times. -/
def onSuccessSeq (cb : CircuitBreaker) (ts : List Int) : CircuitBreaker :=
  ts.foldl onSuccess cb

lemma onFailure_config (cb : CircuitBreaker) (t : Int) :
    (onFailure cb t).config = cb.config := by
  unfold onFailure; split
  · rfl
  · split <;> rfl

lemma onSuccess_config (cb : CircuitBreaker) (t : Int) :
    (onSuccess cb t).config = cb.config := by
  unfold onSuccess; split <;> rfl

lemma onFailure_closed_below (cb : CircuitBreaker) (t : Int)
    (hc : cb.state = .closed)
    (hlt : cb.stats.consecutive_failures + 1 < cb.config.failure_threshold) :
    (onFailure cb t).state = .closed ∧
      (onFailure cb t).stats.consecutive_failures = cb.stats.consecutive_failures + 1 := by
  unfold onFailure
  have h1 : ¬ (cb.state = .closed ∧
      cb.config.failure_threshold ≤ (failStats cb.stats t).consecutive_failures) := by
    rintro ⟨-, hle⟩
    exact absurd hle (by simpa [failStats] using Nat.not_le_of_lt hlt)
  rw [if_neg h1]
  have h2 : ¬ cb.state = .halfOpen := by rw [hc]; intro h; cases h
  rw [if_neg h2]
  exact ⟨hc, rfl⟩

lemma onFailure_closed_trip (cb : CircuitBreaker) (t : Int)
    (hc : cb.state = .closed)
    (hth : cb.config.failure_threshold ≤ cb.stats.consecutive_failures + 1) :
    (onFailure cb t).state = .opened := by
  unfold onFailure
  rw [if_pos ⟨hc, by simpa [failStats] using hth⟩]

lemma onFailureSeq_closed_to_open : ∀ (ts : List Int) (cb : CircuitBreaker),
    cb.state = .closed →
    cb.config.failure_threshold ≤ cb.stats.consecutive_failures + ts.length →
    cb.stats.consecutive_failures < cb.config.failure_threshold →
    (onFailureSeq cb ts).state = .opened := by
  intro ts
  induction ts with
  | nil =>
    intro cb _ hge hlt
    simp only [List.length_nil, Nat.add_zero] at hge
    exact absurd hge (Nat.not_le_of_lt hlt)
  | cons t rest ih =>
    intro cb hc hge hlt
    by_cases htrip : cb.config.failure_threshold ≤ cb.stats.consecutive_failures + 1
    · -- this failure trips the breaker; the remaining failures keep it open
      have hopen : (onFailure cb t).state = .opened := onFailure_closed_trip cb t hc htrip
      -- once open, onFailure can only keep the breaker open
      have : ∀ (us : List Int) (b : CircuitBreaker), b.state = .opened →
          (onFailureSeq b us).state = .opened := by
        intro us
        induction us with
        | nil => intro b hb; exact hb
        | cons u vs ihu =>
          intro b hb
          have hstep : (onFailure b u).state = .opened := by
            unfold onFailure
            split
            · rfl
            · split
              · rfl
              · exact hb
          exact ihu _ hstep
      exact this rest _ hopen
    · have hlt1 : cb.stats.consecutive_failures + 1 < cb.config.failure_threshold :=
        Nat.lt_of_not_le htrip
      obtain ⟨hs, hcf⟩ := onFailure_closed_below cb t hc hlt1
      have hge' : (onFailure cb t).config.failure_threshold ≤
          (onFailure cb t).stats.consecutive_failures + rest.length := by
        rw [onFailure_config, hcf]
        simp only [List.length_cons] at hge
        omega
      have hlt' : (onFailure cb t).stats.consecutive_failures <
          (onFailure cb t).config.failure_threshold := by
        rw [onFailure_config, hcf]
        exact hlt1
      exact ih (onFailure cb t) hs hge' hlt'

lemma onSuccess_halfOpen_below (cb : CircuitBreaker) (t : Int)
    (hc : cb.state = .halfOpen)
    (hlt : cb.stats.consecutive_successes + 1 < cb.config.success_threshold) :
    (onSuccess cb t).state = .halfOpen ∧
      (onSuccess cb t).stats.consecutive_successes = cb.stats.consecutive_successes + 1 := by
  unfold onSuccess
  have h1 : ¬ (cb.state = .halfOpen ∧
      cb.config.success_threshold ≤ (succStats cb.stats t).consecutive_successes) := by
    rintro ⟨-, hle⟩
    exact absurd hle (by simpa [succStats] using Nat.not_le_of_lt hlt)
  rw [if_neg h1]
  exact ⟨hc, rfl⟩

lemma onSuccessSeq_halfOpen_to_closed : ∀ (ts : List Int) (cb : CircuitBreaker),
    cb.state = .halfOpen →
    cb.config.success_threshold ≤ cb.stats.consecutive_successes + ts.length →
    cb.stats.consecutive_successes < cb.config.success_threshold →
    (onSuccessSeq cb ts).state = .closed := by
  intro ts
  induction ts with
  | nil =>
    intro cb _ hge hlt
    simp only [List.length_nil, Nat.add_zero] at hge
    exact absurd hge (Nat.not_le_of_lt hlt)
  | cons t rest ih =>
    intro cb hc hge hlt
    by_cases hclose : cb.config.success_threshold ≤ cb.stats.consecutive_successes + 1
    · have hclosed : (onSuccess cb t).state = .closed := by
        unfold onSuccess
        rw [if_pos ⟨hc, by simpa [succStats] using hclose⟩]
      have : ∀ (us : List Int) (b : CircuitBreaker), b.state = .closed →
          b.config.success_threshold ≠ 0 →
          (onSuccessSeq b us).state = .closed := by
        intro us
        induction us with
        | nil => intro b hb _; exact hb
        | cons u vs ihu =>
          intro b hb hth
          have hstep : (onSuccess b u).state = .closed ∧
              (onSuccess b u).config.success_threshold ≠ 0 := by
            refine ⟨?_, by rw [onSuccess_config]; exact hth⟩
            unfold onSuccess
            split
            · rfl
            · exact hb
          exact ihu _ hstep.1 hstep.2
      refine this rest _ hclosed ?_
      rw [onSuccess_config]
      intro h0
      rw [h0] at hlt
      exact Nat.not_lt_zero _ hlt
    · have hlt1 : cb.stats.consecutive_successes + 1 < cb.config.success_threshold :=
        Nat.lt_of_not_le hclose
      obtain ⟨hs, hcs⟩ := onSuccess_halfOpen_below cb t hc hlt1
      have hge' : (onSuccess cb t).config.success_threshold ≤
          (onSuccess cb t).stats.consecutive_successes + rest.length := by
        rw [onSuccess_config, hcs]
        simp only [List.length_cons] at hge
        omega
      have hlt' : (onSuccess cb t).stats.consecutive_successes <
          (onSuccess cb t).config.success_threshold := by
        rw [onSuccess_config, hcs]
        exact hlt1
      exact ih (onSuccess cb t) hs hge' hlt'

/-- C3: after `failure_threshold` consecutive failures while closed the breaker
opens; a call attempted while open within `recovery_timeout` of the last
failure is rejected without invoking the operation and leaves the breaker
unchanged; after `recovery_timeout` a probe is admitted and the breaker moves
to half-open (with the success counter reset); `success_threshold` consecutive
successes in half-open close it; and any failure in half-open reopens it. -/
theorem c3_breaker_state_machine :
    (∀ (cb : CircuitBreaker) (ts : List Int),
        cb.state = .closed → cb.stats.consecutive_failures = 0 →
        ts.length = cb.config.failure_threshold → 1 ≤ cb.config.failure_threshold →
        (onFailureSeq cb ts).state = .opened)
  ∧ (∀ (cb : CircuitBreaker) (now tf : Int) (op : Bool),
        cb.state = .opened → cb.stats.last_failure_time = some tf →
        now - tf < cb.config.recovery_timeout →
        checkState cb now = .error () ∧ callBreaker cb now op = (cb, false, false))
  ∧ (∀ (cb : CircuitBreaker) (now tf : Int),
        cb.state = .opened → cb.stats.last_failure_time = some tf → tf ≠ 0 →
        cb.config.recovery_timeout ≤ now - tf →
        ∃ cb1, checkState cb now = .ok cb1 ∧ cb1.state = .halfOpen ∧
          cb1.stats.consecutive_successes = 0 ∧ (callBreaker cb now true).2.1 = true)
  ∧ (∀ (cb : CircuitBreaker) (ts : List Int),
        cb.state = .halfOpen → cb.stats.consecutive_successes = 0 →
        ts.length = cb.config.success_threshold → 1 ≤ cb.config.success_threshold →
        (onSuccessSeq cb ts).state = .closed)
  ∧ (∀ (cb : CircuitBreaker) (now : Int),
        cb.state = .halfOpen → (onFailure cb now).state = .opened) := by
  refine ⟨?_, ?_, ?_, ?_, ?_⟩
  · intro cb ts hc h0 hlen hth
    exact onFailureSeq_closed_to_open ts cb hc (by rw [h0, Nat.zero_add, hlen])
      (by rw [h0]; exact Nat.lt_of_lt_of_le Nat.zero_lt_one hth)
  · intro cb now tf op hs hlf hlt
    have hcond : (timeTruthy cb.stats.last_failure_time &&
        decide (cb.config.recovery_timeout ≤ now - cb.stats.last_failure_time.getD 0)) = false := by
      rw [hlf]
      simp only [Option.getD_some, Bool.and_eq_false_iff]
      right
      simpa using not_le_of_lt hlt
    have hcheck : checkState cb now = .error () := by
      unfold checkState
      rw [hs]
      simp only [hcond, Bool.false_eq_true, if_false]
    refine ⟨hcheck, ?_⟩
    unfold callBreaker
    rw [hcheck]
  · intro cb now tf hs hlf htf hle
    have hcond : (timeTruthy cb.stats.last_failure_time &&
        decide (cb.config.recovery_timeout ≤ now - cb.stats.last_failure_time.getD 0)) = true := by
      rw [hlf]
      simp only [Option.getD_some, Bool.and_eq_true, decide_eq_true_eq]
      exact ⟨by simpa [timeTruthy] using htf, hle⟩
    have hcheck : checkState cb now =
        .ok { cb with state := .halfOpen,
                      stats := { cb.stats with consecutive_successes := 0 } } := by
      unfold checkState
      rw [hs]
      simp only [hcond, if_true]
    refine ⟨_, hcheck, rfl, rfl, ?_⟩
    unfold callBreaker
    rw [hcheck]
    rfl
  · intro cb ts hc h0 hlen hth
    exact onSuccessSeq_halfOpen_to_closed ts cb hc (by rw [h0, Nat.zero_add, hlen])
      (by rw [h0]; exact Nat.lt_of_lt_of_le Nat.zero_lt_one hth)
  · intro cb now hc
    unfold onFailure
    rw [if_neg (fun h => by rw [hc] at h; cases h.1), if_pos hc]

/-- Concrete closed breaker used by the C3 witness (the `database` breaker
configuration: `failure_threshold=3, recovery_timeout=30, success_threshold=2`). -/
def cbClosed : CircuitBreaker :=
  { config := { failure_threshold := 3, recovery_timeout := 30, success_threshold := 2 } }

/-- Concrete open breaker used by the C3 witness. -/
def cbOpened : CircuitBreaker :=
  { config := { failure_threshold := 3, recovery_timeout := 30, success_threshold := 2 },
    state := .opened,
    stats := { failure_count := 3, consecutive_failures := 3, last_failure_time := some 100 } }

/-- Concrete half-open breaker used by the C3 witness. -/
def cbHalf : CircuitBreaker :=
  { config := { failure_threshold := 3, recovery_timeout := 30, success_threshold := 2 },
    state := .halfOpen,
    stats := { failure_count := 3, last_failure_time := some 100 } }

/-- Witness for C3 at concrete breakers and clock readings. -/
theorem c3_breaker_state_machine_witness :
    (onFailureSeq cbClosed [1, 2, 3]).state = .opened
  ∧ (checkState cbOpened 110 = .error () ∧ callBreaker cbOpened 110 true = (cbOpened, false, false))
  ∧ (∃ cb1, checkState cbOpened 200 = .ok cb1 ∧ cb1.state = .halfOpen ∧
      cb1.stats.consecutive_successes = 0 ∧ (callBreaker cbOpened 200 true).2.1 = true)
  ∧ (onSuccessSeq cbHalf [201, 202]).state = .closed
  ∧ (onFailure cbHalf 201).state = .opened :=
  ⟨c3_breaker_state_machine.1 cbClosed [1, 2, 3] rfl rfl (by decide) (by decide),
   c3_breaker_state_machine.2.1 cbOpened 110 100 true rfl rfl (by decide),
   c3_breaker_state_machine.2.2.1 cbOpened 200 100 rfl rfl (by decide) (by decide),
   c3_breaker_state_machine.2.2.2.1 cbHalf [201, 202] rfl rfl (by decide) (by decide),
   c3_breaker_state_machine.2.2.2.2 cbHalf 201 rfl⟩

/-! ### Saga engine (`app/core/saga_pattern.py`) -/

inductive SagaStepStatus where
  | pending
  | executing
  | completed
  | compensating
  | compensated
  | failed
deriving DecidableEq, Repr

inductive SagaStatus where
  | started
  | executing
  | completed
  | compensating
  | compensated
  | failed
  | aborted
deriving DecidableEq, Repr

/-- A saga step.  The action is abstracted by the outcome of invoking it on a
given attempt index (`true` = returns, `false` = raises); a compensation is
abstracted by `some ok` (`ok` = runs without raising) or `none` (no
compensation configured). -/
structure SagaStep where
  name : String
  actionOutcome : Nat → Bool
  compensation : Option Bool := none
  status : SagaStepStatus := .pending
  retry_count : Nat := 0
  max_retries : Nat := 3

/-- The retry loop of `SagaTransaction._execute_step`
(`for attempt in range(step.max_retries + 1)`), indexed by the current attempt
and the number of attempts left after it.  Returns the number of action
invocations, the list of backoff sleeps (`2 ** attempt` seconds, slept after
every failed non-final attempt), and the attempt on which the action
succeeded, if any. -/
def executeStepAux (act : Nat → Bool) : Nat → Nat → Nat × List Nat × Option Nat
  | attempt, 0 => if act attempt then (1, [], some attempt) else (1, [], none)
  | attempt, left + 1 =>
    if act attempt then (1, [], some attempt)
    else
      let r := executeStepAux act (attempt + 1) left
      (r.1 + 1, 2 ^ attempt :: r.2.1, r.2.2)

/-- `SagaTransaction._execute_step`: run the retry loop and record the final
step status.  Also returns the invocation count and the backoff delays. -/
def executeStep (step : SagaStep) : SagaStep × Nat × List Nat :=
  match executeStepAux step.actionOutcome 0 step.max_retries with
  | (n, delays, some a) => ({ step with status := .completed, retry_count := a }, n, delays)
  | (n, delays, none) => ({ step with status := .failed, retry_count := step.max_retries }, n, delays)

/-- Whether a step's action eventually succeeds within its retry budget. -/
def stepSucceeds (s : SagaStep) : Bool :=
  (executeStep s).1.status == SagaStepStatus.completed

/-- Guard of the reverse compensation walk in
`SagaTransaction._compensate_completed_steps`:
`step.status == SagaStepStatus.COMPLETED and step.compensation`. -/
def eligibleForCompensation (s : SagaStep) : Bool :=
  s.status == SagaStepStatus.completed && s.compensation.isSome

/-- `SagaTransaction._compensate_step`: mark the step `COMPENSATING`, run the
compensation; on success mark `COMPENSATED`, on exception swallow the error
(the status stays `COMPENSATING`). -/
def compensateStep (step : SagaStep) : SagaStep :=
  match step.compensation with
  | some true => { step with status := .compensated }
  | some false => { step with status := .compensating }
  | none => { step with status := .compensating }

/-- `SagaTransaction._compensate_completed_steps`: walk the step list in
reverse, compensating each completed step that has a compensation.  Returns
the updated step list (in original order) and the names of the steps whose
compensation was invoked, in invocation order. -/
def compensatePass : List SagaStep → List SagaStep × List String
  | [] => ([], [])
  | s :: rest =>
    let r := compensatePass rest
    if eligibleForCompensation s then
      (compensateStep s :: r.1, r.2 ++ [s.name])
    else
      (s :: r.1, r.2)

/-- `SagaTransaction.execute`: run the steps in order; on the first step whose
action terminally fails, compensate the completed steps and finish with status
`COMPENSATED`; if every step completes, finish with status `COMPLETED`.
Returns the terminal saga status, the final step list, and the compensation
invocation trace. -/
def executeSagaAux : List SagaStep → List SagaStep → SagaStatus × List SagaStep × List String
  | done, [] => (.completed, done, [])
  | done, s :: rest =>
    let s1 := (executeStep s).1
    if s1.status == SagaStepStatus.completed then
      executeSagaAux (done ++ [s1]) rest
    else
      let r := compensatePass (done ++ s1 :: rest)
      (.compensated, r.1, r.2)

def executeSaga (steps : List SagaStep) : SagaStatus × List SagaStep × List String :=
  executeSagaAux [] steps

lemma executeStepAux_allFail (act : Nat → Bool) (hf : ∀ a, act a = false) :
    ∀ (left attempt : Nat),
      executeStepAux act attempt left =
        (left + 1, (List.range left).map (fun i => 2 ^ (attempt + i)), none) := by
  intro left
  induction left with
  | zero => intro attempt; simp [executeStepAux, hf]
  | succ k ih =>
    intro attempt
    simp only [executeStepAux, hf, Bool.false_eq_true, if_false]
    rw [ih (attempt + 1)]
    refine congrArg (fun l => (k + 1 + 1, l, (none : Option Nat))) ?_
    rw [List.range_succ_eq_map, List.map_cons, List.map_map]
    refine congrArg₂ (· :: ·) (by rw [Nat.add_zero]) ?_
    refine List.map_congr_left ?_
    intro i _
    show 2 ^ (attempt + 1 + i) = 2 ^ (attempt + Nat.succ i)
    congr 1
    omega

/-- C6 (amended): a step whose action always fails is invoked exactly
`max_retries + 1` times, the inter-attempt delays are exactly `2 ^ attempt`
seconds for `attempt = 0 .. max_retries - 1` (no cap is applied), and the step
ends `failed`. -/
theorem c6_retry_backoff (step : SagaStep) (hf : ∀ a, step.actionOutcome a = false) :
    (executeStep step).2.1 = step.max_retries + 1 ∧
    (executeStep step).2.2 = (List.range step.max_retries).map (fun a => 2 ^ a) ∧
    (executeStep step).1.status = .failed := by
  have h := executeStepAux_allFail step.actionOutcome hf step.max_retries 0
  simp only [Nat.zero_add] at h
  unfold executeStep
  rw [h]
  exact ⟨rfl, rfl, rfl⟩

/-- Concrete always-failing step (default `max_retries = 3`) for the C6 witness. -/
def stepAlwaysFails : SagaStep :=
  { name := "always_fails", actionOutcome := fun _ => false }

/-- Witness for C6 at a concrete always-failing step with `max_retries = 3`:
four invocations, delays `[1, 2, 4]`. -/
theorem c6_retry_backoff_witness :
    (executeStep stepAlwaysFails).2.1 = stepAlwaysFails.max_retries + 1 ∧
    (executeStep stepAlwaysFails).2.2 =
      (List.range stepAlwaysFails.max_retries).map (fun a => 2 ^ a) ∧
    (executeStep stepAlwaysFails).1.status = .failed :=
  c6_retry_backoff stepAlwaysFails (fun _ => rfl)

/-- Concrete always-failing step with `max_retries = 20` for the C6
counterexample. -/
def stepAlwaysFails20 : SagaStep :=
  { name := "always_fails_20", actionOutcome := fun _ => false, max_retries := 20 }

/-- C6 counterexample to the original claim: the backoff sequence is not
capped.  For `max_retries = 20` the sleep before the final attempt is
`2 ^ 19 = 524288` seconds, far above the only backoff cap the configuration
names anywhere (300 s): `asyncio.sleep(2 ** attempt)` applies no cap. -/
theorem c6_counterexample_uncapped :
    524288 ∈ (executeStep stepAlwaysFails20).2.2 ∧ ¬ (524288 ≤ 300) := by
  exact ⟨by decide, by decide⟩

lemma compensatePass_spec (steps : List SagaStep) :
    compensatePass steps =
      (steps.map (fun s => if eligibleForCompensation s then compensateStep s else s),
       ((steps.filter eligibleForCompensation).reverse).map SagaStep.name) := by
  induction steps with
  | nil => rfl
  | cons s rest ih =>
    unfold compensatePass
    rw [ih]
    cases h : eligibleForCompensation s <;>
      simp [h, List.filter_cons, List.reverse_cons, List.map_append]

lemma executeStep_name (s : SagaStep) : (executeStep s).1.name = s.name := by
  unfold executeStep
  rcases executeStepAux s.actionOutcome 0 s.max_retries with ⟨n, delays, _ | a⟩ <;> rfl

lemma executeStep_compensation (s : SagaStep) :
    (executeStep s).1.compensation = s.compensation := by
  unfold executeStep
  rcases executeStepAux s.actionOutcome 0 s.max_retries with ⟨n, delays, _ | a⟩ <;> rfl

lemma executeStep_status_or (s : SagaStep) :
    (executeStep s).1.status = .completed ∨ (executeStep s).1.status = .failed := by
  unfold executeStep
  rcases executeStepAux s.actionOutcome 0 s.max_retries with ⟨n, delays, _ | a⟩
  · exact Or.inr rfl
  · exact Or.inl rfl

lemma stepSucceeds_true {s : SagaStep} (h : stepSucceeds s = true) :
    (executeStep s).1.status = .completed := by
  unfold stepSucceeds at h
  simpa using h

lemma stepSucceeds_false {s : SagaStep} (h : stepSucceeds s = false) :
    (executeStep s).1.status = .failed := by
  rcases executeStep_status_or s with hc | hf
  · exfalso
    unfold stepSucceeds at h
    rw [hc] at h
    simp at h
  · exact hf

lemma executeSagaAux_status : ∀ (rest done : List SagaStep),
    ((executeSagaAux done rest).1 = .completed ∨ (executeSagaAux done rest).1 = .compensated) ∧
    ((executeSagaAux done rest).1 = .completed ↔ ∀ s ∈ rest, stepSucceeds s = true) := by
  intro rest
  induction rest with
  | nil =>
    intro done
    refine ⟨Or.inl rfl, ?_⟩
    simp [executeSagaAux]
  | cons s tail ih =>
    intro done
    cases hs : stepSucceeds s with
    | true =>
      have hb : ((executeStep s).1.status == SagaStepStatus.completed) = true := hs
      have hred : executeSagaAux done (s :: tail) =
          executeSagaAux (done ++ [(executeStep s).1]) tail := by
        simp only [executeSagaAux, hb, if_true]
      rw [hred]
      refine ⟨(ih _).1, ?_⟩
      rw [(ih _).2]
      simp [hs]
    | false =>
      have hb : ((executeStep s).1.status == SagaStepStatus.completed) = false := hs
      have hred : executeSagaAux done (s :: tail) =
          (.compensated, (compensatePass (done ++ (executeStep s).1 :: tail)).1,
            (compensatePass (done ++ (executeStep s).1 :: tail)).2) := by
        simp only [executeSagaAux, hb, Bool.false_eq_true, if_false]
      rw [hred]
      refine ⟨Or.inr rfl, ?_, ?_⟩
      · intro h; cases h
      · intro hall
        exfalso
        have := hall s (List.mem_cons_self s tail)
        rw [hs] at this
        cases this

lemma executeSagaAux_trace : ∀ (rest done : List SagaStep),
    (∀ s ∈ done, s.status = .completed) →
    (∀ s ∈ rest, s.status = .pending) →
    (executeSagaAux done rest).1 = .compensated →
    (executeSagaAux done rest).2.2 =
      ((done ++ (rest.takeWhile stepSucceeds).map (fun s => (executeStep s).1)).filter
        eligibleForCompensation).reverse.map SagaStep.name := by
  intro rest
  induction rest with
  | nil =>
    intro done _ _ hcomp
    simp [executeSagaAux] at hcomp
  | cons s tail ih =>
    intro done hdone hpend hcomp
    cases hs : stepSucceeds s with
    | true =>
      have hb : ((executeStep s).1.status == SagaStepStatus.completed) = true := hs
      have hred : executeSagaAux done (s :: tail) =
          executeSagaAux (done ++ [(executeStep s).1]) tail := by
        simp only [executeSagaAux, hb, if_true]
      rw [hred] at hcomp ⊢
      have hdone' : ∀ x ∈ done ++ [(executeStep s).1], x.status = .completed := by
        intro x hx
        rcases List.mem_append.mp hx with h | h
        · exact hdone x h
        · rw [List.mem_singleton.mp h]
          exact stepSucceeds_true hs
      have hpend' : ∀ x ∈ tail, x.status = .pending :=
        fun x hx => hpend x (List.mem_cons_of_mem _ hx)
      rw [ih (done ++ [(executeStep s).1]) hdone' hpend' hcomp]
      rw [List.takeWhile_cons_of_pos hs]
      simp [List.append_assoc]
    | false =>
      have hb : ((executeStep s).1.status == SagaStepStatus.completed) = false := hs
      have hred : executeSagaAux done (s :: tail) =
          (.compensated, (compensatePass (done ++ (executeStep s).1 :: tail)).1,
            (compensatePass (done ++ (executeStep s).1 :: tail)).2) := by
        simp only [executeSagaAux, hb, Bool.false_eq_true, if_false]
      rw [hred]
      rw [compensatePass_spec]
      rw [List.takeWhile_cons_of_neg (by rw [hs]; exact Bool.false_ne_true)]
      have h1 : eligibleForCompensation (executeStep s).1 = false := by
        unfold eligibleForCompensation
        rw [stepSucceeds_false hs]
        rfl
      have h2 : ∀ x ∈ tail, eligibleForCompensation x = false := by
        intro x hx
        unfold eligibleForCompensation
        rw [hpend x (List.mem_cons_of_mem _ hx)]
        rfl
      have h3 : (((executeStep s).1 :: tail).filter eligibleForCompensation) = [] := by
        rw [List.filter_cons_of_neg (by rw [h1]; exact Bool.false_ne_true)]
        exact List.filter_eq_nil_iff.mpr (fun x hx => by rw [h2 x hx]; exact Bool.false_ne_true)
      simp [List.filter_append, h3]

/-- C4: in the compensation walk, a step's compensation is invoked exactly when
that step's action reached `completed` status and a compensation is present;
the invocations happen in strict reverse insertion order; and a compensation
that raises does not stop the remaining compensations (the walk's outcome and
trace are fully determined by step statuses and compensation presence,
independent of compensation failures).  Consequently, a saga whose execution
hits a terminal action failure compensates exactly the completed prefix steps
that carry a compensation, in reverse order. -/
theorem c4_compensation_invariants :
    (∀ steps : List SagaStep,
        (compensatePass steps).1 =
          steps.map (fun s => if eligibleForCompensation s then compensateStep s else s) ∧
        (compensatePass steps).2 =
          ((steps.filter eligibleForCompensation).reverse).map SagaStep.name)
  ∧ (∀ steps : List SagaStep,
        (∀ s ∈ steps, s.status = .pending) →
        (executeSaga steps).1 = .compensated →
        (executeSaga steps).2.2 =
          (((steps.takeWhile stepSucceeds).filter
            (fun s => s.compensation.isSome)).reverse).map SagaStep.name) := by
  constructor
  · intro steps
    rw [compensatePass_spec]
    exact ⟨rfl, rfl⟩
  · intro steps hpend hcomp
    unfold executeSaga at hcomp ⊢
    rw [executeSagaAux_trace steps [] (by intro s h; cases h) hpend hcomp]
    rw [List.nil_append]
    rw [List.filter_map]
    have hcong : (steps.takeWhile stepSucceeds).filter
        (eligibleForCompensation ∘ fun s => (executeStep s).1) =
        (steps.takeWhile stepSucceeds).filter (fun s => s.compensation.isSome) := by
      refine List.filter_congr ?_
      intro x hx
      have hsx : stepSucceeds x = true := List.mem_takeWhile_imp hx
      show eligibleForCompensation (executeStep x).1 = x.compensation.isSome
      unfold eligibleForCompensation
      rw [stepSucceeds_true hsx, executeStep_compensation]
      simp
    rw [hcong]
    rw [← List.map_reverse]
    rw [List.map_map]
    refine List.map_congr_left ?_
    intro x _
    exact executeStep_name x

/-- Concrete saga for the C4 witness: three completed steps (two with
compensations) followed by an always-failing commit step. -/
def sagaW1 : SagaStep := { name := "validate_student_and_period", actionOutcome := fun _ => true }

def sagaW2 : SagaStep :=
  { name := "reserve_grupos", actionOutcome := fun _ => true, compensation := some true }

def sagaW3 : SagaStep :=
  { name := "create_inscription", actionOutcome := fun _ => true, compensation := some true }

def sagaW4 : SagaStep :=
  { name := "commit_grupo_inscriptions", actionOutcome := fun _ => false,
    compensation := some true }

/-- Witness for C4 at a concrete failing saga: the compensation trace is the
reverse of the completed steps that have compensations. -/
theorem c4_compensation_invariants_witness :
    (executeSaga [sagaW1, sagaW2, sagaW3, sagaW4]).2.2 =
      ((([sagaW1, sagaW2, sagaW3, sagaW4].takeWhile stepSucceeds).filter
        (fun s => s.compensation.isSome)).reverse).map SagaStep.name :=
  c4_compensation_invariants.2 [sagaW1, sagaW2, sagaW3, sagaW4]
    (by decide)
    rfl

/-- C5 (amended): the terminal status of `execute` is `completed` exactly when
every step's action eventually succeeds within its retry budget, and
`compensated` otherwise — including when a compensation itself raises, because
`_compensate_step` swallows compensation exceptions; the `failed` status is
never produced by an action or compensation failure (it would require an
exception escaping the execution loop itself). -/
theorem c5_saga_terminal_status (steps : List SagaStep) :
    ((executeSaga steps).1 = .completed ∨ (executeSaga steps).1 = .compensated) ∧
    ((executeSaga steps).1 = .completed ↔ ∀ s ∈ steps, stepSucceeds s = true) :=
  executeSagaAux_status steps []

/-- Completed step whose compensation raises, for the C5 counterexample. -/
def stepOkCompRaises : SagaStep :=
  { name := "create_detail", actionOutcome := fun _ => true, compensation := some false }

/-- Always-failing step for the C5 counterexample. -/
def stepNeverOk : SagaStep :=
  { name := "commit_grupo_inscriptions", actionOutcome := fun _ => false }

/-- C5 counterexample to the original claim: when a compensation itself fails,
the saga still ends `COMPENSATED`, not `FAILED` — the first step's
compensation raises (its status is left stuck at `compensating`), yet
`execute` reports `compensated`. -/
theorem c5_counterexample_compensation_failure :
    (executeSaga [stepOkCompRaises, stepNeverOk]).1 = .compensated ∧
    ((executeSaga [stepOkCompRaises, stepNeverOk]).2.1.map SagaStep.status) =
      [.compensating, .failed] ∧
    (executeSaga [stepOkCompRaises, stepNeverOk]).1 ≠ .failed :=
  ⟨rfl, rfl, by decide⟩

/-! ### Group reservation
(`InscriptionSagaOrchestrator._reserve_grupos` / `_release_grupos` in
`app/core/saga_pattern.py`).  The Redis lock state is modelled as the list of
currently held lock keys; `set(…, nx=True)` succeeds exactly when the key is
absent, `delete` removes it. -/

def lockKey (grupo : String) : String := "grupo_lock:" ++ grupo

/-- `_release_grupos`: delete the lock key of each grupo, iterating the list
in the order given.  Returns the remaining held keys and the grupos in release
order. -/
def releaseGrupos : List String → List String → List String × List String
  | held, [] => (held, [])
  | held, g :: rest =>
    let r := releaseGrupos (held.filter (fun k => k != lockKey g)) rest
    (r.1, g :: r.2)

inductive ReserveResult where
  | ok (held : List String) (reserved : List String)
  | conflict (grupo : String) (held : List String) (released : List String)
deriving DecidableEq, Repr

/-- The loop of `_reserve_grupos`: acquire `grupo_lock:<code>` for each grupo
in order; on the first lock that cannot be acquired, release every previously
acquired lock (via `_release_grupos`, which walks `reserved_grupos` in
acquisition order) and fail with that grupo. -/
def reserveGruposAux (held reserved : List String) : List String → ReserveResult
  | [] => .ok held reserved
  | g :: rest =>
    if held.contains (lockKey g) then
      let r := releaseGrupos held reserved
      .conflict g r.1 r.2
    else
      reserveGruposAux (lockKey g :: held) (reserved ++ [g]) rest

/-- `_reserve_grupos`, starting from a given set of held lock keys. -/
def reserveGrupos (held : List String) (grupos : List String) : ReserveResult :=
  reserveGruposAux held [] grupos

lemma releaseGrupos_spec : ∀ (gs held : List String),
    releaseGrupos held gs =
      (held.filter (fun k => !((gs.map lockKey).contains k)), gs) := by
  intro gs
  induction gs with
  | nil =>
    intro held
    simp [releaseGrupos]
  | cons g rest ih =>
    intro held
    unfold releaseGrupos
    rw [ih]
    rw [List.filter_filter]
    refine congrArg (fun l => (l, g :: rest)) ?_
    refine List.filter_congr ?_
    intro k _
    show (!((rest.map lockKey).contains k) && (k != lockKey g)) =
      !(((g :: rest).map lockKey).contains k)
    simp only [List.map_cons, List.contains_cons, Bool.not_or]
    rw [Bool.and_comm]
    rfl

lemma reserveGruposAux_conflict : ∀ (gs held₀ acc : List String)
    (g : String) (h tr : List String),
    (∀ a ∈ acc, lockKey a ∉ held₀) →
    ((acc.map lockKey)).Nodup →
    reserveGruposAux ((acc.reverse.map lockKey) ++ held₀) acc gs = .conflict g h tr →
    h = held₀ ∧ ∃ pre rest, tr = acc ++ pre ∧ gs = pre ++ g :: rest := by
  intro gs
  induction gs with
  | nil =>
    intro held₀ acc g h tr _ _ hc
    cases hc
  | cons x rest ih =>
    intro held₀ acc g h tr hdisj hnodup hc
    unfold reserveGruposAux at hc
    by_cases hmem : ((acc.reverse.map lockKey) ++ held₀).contains (lockKey x) = true
    · rw [if_pos hmem] at hc
      rw [releaseGrupos_spec] at hc
      cases hc
      refine ⟨?_, [], rest, (List.append_nil acc).symm, rfl⟩
      rw [List.filter_append]
      have hall : (acc.reverse.map lockKey).filter
          (fun k => !((acc.map lockKey).contains k)) = [] := by
        refine List.filter_eq_nil_iff.mpr ?_
        intro k hk
        have hm : k ∈ acc.map lockKey := by
          rw [List.map_reverse, List.mem_reverse] at hk
          exact hk
        have hcc : (acc.map lockKey).contains k = true := List.elem_iff.mpr hm
        intro hcontr
        rw [hcc] at hcontr
        cases hcontr
      have hkeep : held₀.filter (fun k => !((acc.map lockKey).contains k)) = held₀ := by
        refine List.filter_eq_self.mpr ?_
        intro k hk
        have hnm : k ∉ acc.map lockKey := by
          intro hmem'
          rcases List.mem_map.mp hmem' with ⟨a, ha, hka⟩
          exact hdisj a ha (hka ▸ hk)
        have hcc : (acc.map lockKey).contains k = false := by
          cases hcase : (acc.map lockKey).contains k
          · rfl
          · exact absurd (List.elem_iff.mp hcase) hnm
        rw [hcc]
        rfl
      rw [hall, hkeep, List.nil_append]
    · rw [if_neg hmem] at hc
      have hx : lockKey x ∉ (acc.reverse.map lockKey) ++ held₀ := by
        intro hmem'
        exact hmem (List.elem_iff.mpr hmem')
      have hshape : lockKey x :: ((acc.reverse.map lockKey) ++ held₀) =
          (((acc ++ [x]).reverse.map lockKey) ++ held₀) := by
        rw [List.reverse_append, List.reverse_singleton, List.singleton_append,
          List.map_cons, List.cons_append]
      rw [hshape] at hc
      have hdisj' : ∀ a ∈ acc ++ [x], lockKey a ∉ held₀ := by
        intro a ha
        rcases List.mem_append.mp ha with h' | h'
        · exact hdisj a h'
        · rw [List.mem_singleton.mp h']
          intro hin
          exact hx (List.mem_append.mpr (Or.inr hin))
      have hnodup' : ((acc ++ [x]).map lockKey).Nodup := by
        rw [List.map_append, List.map_singleton]
        refine List.Nodup.append hnodup (List.nodup_singleton _) ?_
        intro k hk1 hk2
        rw [List.mem_singleton.mp hk2] at hk1
        exact hx (List.mem_append.mpr (Or.inl (by
          rw [List.map_reverse, List.mem_reverse]
          exact hk1)))
      obtain ⟨hh, pre, rest', htr, hgs⟩ := ih held₀ (acc ++ [x]) g h tr hdisj' hnodup' hc
      refine ⟨hh, x :: pre, rest', ?_, ?_⟩
      · rw [htr, List.append_assoc, List.singleton_append]
      · rw [hgs, List.cons_append]

/-- C7 (amended): when `_reserve_grupos` hits its first lock conflict, every
lock acquired earlier in that call is released — in acquisition (forward)
order, since `_release_grupos` iterates `reserved_grupos` front to back — the
operation fails with that grupo, and the lock state is restored exactly to
what it was before the call (no lock of this call remains held).  The released
list is precisely the prefix of the requested grupos acquired before the
conflicting grupo. -/
theorem c7_reserve_conflict_releases_all (held grupos : List String) (g : String)
    (h tr : List String)
    (hc : reserveGrupos held grupos = .conflict g h tr) :
    h = held ∧ ∃ rest, grupos = tr ++ g :: rest := by
  have := reserveGruposAux_conflict grupos held [] g h tr
    (by intro a ha; cases ha) List.nodup_nil (by simpa [reserveGrupos] using hc)
  obtain ⟨hh, pre, rest, htr, hgs⟩ := this
  rw [List.nil_append] at htr
  exact ⟨hh, rest, by rw [hgs, htr]⟩

/-- C7 counterexample to "released in reverse acquisition order": with `G3`
already locked by another holder, reserving `[G1, G2, G3]` releases `G1` then
`G2` — acquisition order, not the reverse `[G2, G1]`. -/
theorem c7_counterexample_forward_release :
    reserveGrupos [lockKey "G3"] ["G1", "G2", "G3"] =
      .conflict "G3" [lockKey "G3"] ["G1", "G2"] ∧
    (["G1", "G2"] : List String) ≠ ["G2", "G1"] :=
  ⟨rfl, by decide⟩

/-- Witness for C7 at the same concrete conflict. -/
theorem c7_reserve_conflict_releases_all_witness :
    [lockKey "G3"] = [lockKey "G3"] ∧
    ∃ rest, ["G1", "G2", "G3"] = ["G1", "G2"] ++ "G3" :: rest :=
  c7_reserve_conflict_releases_all [lockKey "G3"] ["G1", "G2", "G3"] "G3"
    [lockKey "G3"] ["G1", "G2"] rfl

/-! ### Schedule-conflict detection (`app/tasks.py`) -/

/-- A `Horario` row: day-of-week set and a time interval.  Times are minutes
since midnight (the source compares `datetime.time` values with `<=`). -/
structure Horario where
  dias_semana : List String
  hora_inicio : Nat
  hora_fin : Nat
deriving DecidableEq, Repr

/-- `_horarios_se_solapan`: `not (fin1 <= inicio2 or fin2 <= inicio1)`. -/
def horariosSeSolapan (inicio1 fin1 inicio2 fin2 : Nat) : Bool :=
  !(decide (fin1 ≤ inicio2) || decide (fin2 ≤ inicio1))

/-- One row of the `Grupo × Horario` join. -/
structure GrupoHorario where
  codigo_grupo : String
  horario : Horario
deriving DecidableEq, Repr

/-- `set(h1.dias_semana) & set(h2.dias_semana)` is non-empty. -/
def diasComunes (h1 h2 : Horario) : Bool :=
  h1.dias_semana.any (fun d => h2.dias_semana.contains d)

/-- `_validate_horarios_conflicto`: scan ordered pairs `i < j`; skip pairs
whose day sets do not intersect; on the first remaining pair whose intervals
overlap, fail with the second group's code (`ConflictoHorarioException`). -/
def validateHorariosConflicto : List GrupoHorario → Option String
  | [] => none
  | gh :: rest =>
    match rest.find? (fun gh2 =>
        diasComunes gh.horario gh2.horario &&
        horariosSeSolapan gh.horario.hora_inicio gh.horario.hora_fin
          gh2.horario.hora_inicio gh2.horario.hora_fin) with
    | some gh2 => some gh2.codigo_grupo
    | none => validateHorariosConflicto rest

/-- C8: the overlap predicate computes exactly
`!(end1 <= start2 || end2 <= start1)`, is symmetric, and treats intervals as
half-open — back-to-back `[08:00,10:00)` / `[10:00,12:00)` on a shared day is
no conflict while `[09:00,11:00)` / `[10:00,12:00)` is — and pairwise conflict
detection fires only for groups whose day-of-week sets intersect. -/
theorem c8_schedule_conflict :
    (∀ i1 f1 i2 f2 : Nat, horariosSeSolapan i1 f1 i2 f2 = true ↔ ¬ (f1 ≤ i2 ∨ f2 ≤ i1))
  ∧ (∀ i1 f1 i2 f2 : Nat, horariosSeSolapan i1 f1 i2 f2 = horariosSeSolapan i2 f2 i1 f1)
  ∧ validateHorariosConflicto
      [⟨"G-X", ⟨["LUN"], 480, 600⟩⟩, ⟨"G-Y", ⟨["LUN"], 600, 720⟩⟩] = none
  ∧ validateHorariosConflicto
      [⟨"G-A", ⟨["LUN"], 540, 660⟩⟩, ⟨"G-Y", ⟨["LUN"], 600, 720⟩⟩] = some "G-Y"
  ∧ (∀ ghs : List GrupoHorario,
      List.Pairwise (fun a b => diasComunes a.horario b.horario = false) ghs →
      validateHorariosConflicto ghs = none) := by
  refine ⟨?_, ?_, rfl, rfl, ?_⟩
  · intro i1 f1 i2 f2
    simp [horariosSeSolapan, not_or]
  · intro i1 f1 i2 f2
    unfold horariosSeSolapan
    rw [Bool.or_comm]
  · intro ghs
    induction ghs with
    | nil => intro _; rfl
    | cons gh rest ih =>
      intro hpw
      rcases List.pairwise_cons.mp hpw with ⟨hhead, htail⟩
      unfold validateHorariosConflicto
      have hnone : rest.find? (fun gh2 =>
          diasComunes gh.horario gh2.horario &&
          horariosSeSolapan gh.horario.hora_inicio gh.horario.hora_fin
            gh2.horario.hora_inicio gh2.horario.hora_fin) = none := by
        refine List.find?_eq_none.mpr ?_
        intro gh2 hmem
        rw [hhead gh2 hmem]
        simp
      rw [hnone]
      exact ih htail

/-- Witness for C8's day-gating conjunct: two overlapping intervals on
disjoint days produce no conflict. -/
theorem c8_schedule_conflict_witness :
    validateHorariosConflicto
      [⟨"G-L", ⟨["LUN"], 480, 600⟩⟩, ⟨"G-M", ⟨["MAR"], 480, 600⟩⟩] = none :=
  c8_schedule_conflict.2.2.2.2
    [⟨"G-L", ⟨["LUN"], 480, 600⟩⟩, ⟨"G-M", ⟨["MAR"], 480, 600⟩⟩] (by decide)

/-! ### Relational rows (`app/models`) as used by `app/tasks.py`.  A `DB`
value is the visible table contents; queries are list scans and the
uncommitted working state is threaded explicitly (a raised exception triggers
`db.rollback()`, so an error leaves the original `DB`). -/

structure Estudiante where
  registro_academico : String
  estado_academico : String
deriving DecidableEq, Repr

structure PeriodoAcademico where
  codigo_periodo : String
  estado : String
deriving DecidableEq, Repr

structure Grupo where
  codigo_grupo : String
  sigla_materia : String
  cupo : Nat
  inscritos_actuales : Nat
deriving DecidableEq, Repr

structure Inscripcion where
  codigo_inscripcion : String
  registro_academico : String
  codigo_periodo : String
deriving DecidableEq, Repr

structure DetalleInscripcion where
  codigo_detalle : String
  codigo_inscripcion : String
  codigo_grupo : String
deriving DecidableEq, Repr

structure DB where
  estudiantes : List Estudiante
  periodos : List PeriodoAcademico
  grupos : List Grupo
  horarios : List (String × Horario)
  inscripciones : List Inscripcion
  detalles : List DetalleInscripcion
deriving DecidableEq, Repr

/-- The domain exceptions of `app/exceptions.py` raised by the task layer,
plus SQLAlchemy's `NoResultFound` (raised by `scalar_one()` on a missing
row). -/
inductive DomainError where
  | estudianteNoEncontrado (registro : String)
  | estudianteBloqueado (registro : String)
  | periodoNoEncontrado (periodo : String)
  | periodoInactivo (periodo estado : String)
  | grupoNoEncontrado (grupo : String)
  | grupoSinCupo (grupo : String) (cupo inscritos : Nat)
  | conflictoHorario (grupo : String)
  | grupoDuplicado (arg1 arg2 arg3 : String)
  | noResultFound (grupo : String)
deriving DecidableEq, Repr

def findEstudiante (db : DB) (ra : String) : Option Estudiante :=
  db.estudiantes.find? (fun e => e.registro_academico == ra)

def findPeriodo (db : DB) (p : String) : Option PeriodoAcademico :=
  db.periodos.find? (fun x => x.codigo_periodo == p)

def findGrupo (db : DB) (g : String) : Option Grupo :=
  db.grupos.find? (fun x => x.codigo_grupo == g)

def findInscripcion (db : DB) (ra periodo : String) : Option Inscripcion :=
  db.inscripciones.find? (fun i =>
    (i.registro_academico == ra) && (i.codigo_periodo == periodo))

/-- `_validate_grupos_disponibilidad`: for each group code, `SELECT … FOR
UPDATE` the row; missing row fails with `GrupoNoEncontrado`; a full group
(`inscritos_actuales >= cupo`) fails with `GrupoSinCupo`.  Read-only: the
counter is not modified. -/
def validateGruposDisponibilidad (db : DB) : List String → Option DomainError
  | [] => none
  | c :: rest =>
    match findGrupo db c with
    | none => some (.grupoNoEncontrado c)
    | some g =>
      if g.cupo ≤ g.inscritos_actuales then
        some (.grupoSinCupo c g.cupo g.inscritos_actuales)
      else
        validateGruposDisponibilidad db rest

/-- `_increment_grupo_inscritos` (`app/tasks.py`, lines 626-633, the binding
in effect): `SELECT … FOR UPDATE`, `scalar_one()` (raises `NoResultFound` on a
missing row), then `inscritos_actuales += 1` — unconditionally, with no
capacity check. -/
def incrementGrupoInscritos (db : DB) (codigo : String) : Except DomainError DB :=
  match findGrupo db codigo with
  | none => .error (.noResultFound codigo)
  | some _ =>
    .ok { db with grupos := db.grupos.map (fun g =>
        if g.codigo_grupo == codigo then
          { g with inscritos_actuales := g.inscritos_actuales + 1 }
        else g) }

lemma find?_map_increment : ∀ (l : List Grupo) (c : String) (g : Grupo),
    l.find? (fun x => x.codigo_grupo == c) = some g →
    (l.map (fun x => if x.codigo_grupo == c then
        { x with inscritos_actuales := x.inscritos_actuales + 1 } else x)).find?
      (fun x => x.codigo_grupo == c) =
      some { g with inscritos_actuales := g.inscritos_actuales + 1 } := by
  intro l
  induction l with
  | nil => intro c g h; cases h
  | cons x rest ih =>
    intro c g h
    cases hx : (x.codigo_grupo == c) with
    | true =>
      simp only [List.find?_cons, hx] at h
      cases h
      have heq : x.codigo_grupo = c := by simpa using hx
      simp [List.map_cons, List.find?_cons, heq]
    | false =>
      simp only [List.find?_cons, hx] at h
      simp only [List.map_cons, List.find?_cons, hx, Bool.false_eq_true, if_false]
      exact ih c g h

/-- C2 (amended): the capacity check is performed by
`_validate_grupos_disponibilidad`, which locks each group row
(`SELECT … FOR UPDATE`) and fails with `GrupoSinCupo` — leaving the counter
unchanged — whenever `inscritos_actuales >= cupo`; validation passes only when
every requested group exists with spare capacity.  The commit step
`_increment_grupo_inscritos` locks the row and increments unconditionally: it
performs no capacity check of its own (in the enrollment flows it runs inside
the same transaction, after validation, under the row locks validation
acquired). -/
theorem c2_capacity_check_location :
    (∀ (db : DB) (codigos : List String),
        validateGruposDisponibilidad db codigos = none →
        ∀ c ∈ codigos, ∃ g, findGrupo db c = some g ∧ g.inscritos_actuales < g.cupo)
  ∧ (∀ (db : DB) (c : String) (g : Grupo),
        findGrupo db c = some g → g.cupo ≤ g.inscritos_actuales →
        validateGruposDisponibilidad db [c] =
          some (.grupoSinCupo c g.cupo g.inscritos_actuales))
  ∧ (∀ (db : DB) (c : String) (g : Grupo),
        findGrupo db c = some g →
        ∃ db', incrementGrupoInscritos db c = .ok db' ∧
          findGrupo db' c = some { g with inscritos_actuales := g.inscritos_actuales + 1 }) := by
  refine ⟨?_, ?_, ?_⟩
  · intro db codigos
    induction codigos with
    | nil => intro _ c hc; cases hc
    | cons x rest ih =>
      intro hnone c hc
      unfold validateGruposDisponibilidad at hnone
      split at hnone
      · cases hnone
      · next g hg =>
        split at hnone
        · cases hnone
        · next hcap =>
          rcases List.mem_cons.mp hc with rfl | hmem
          · exact ⟨g, hg, Nat.lt_of_not_le hcap⟩
          · exact ih hnone c hmem
  · intro db c g hg hcap
    simp only [validateGruposDisponibilidad, hg]
    rw [if_pos hcap]
  · intro db c g hg
    refine ⟨{ db with grupos := db.grupos.map (fun x =>
        if x.codigo_grupo == c then
          { x with inscritos_actuales := x.inscritos_actuales + 1 } else x) }, ?_, ?_⟩
    · simp only [incrementGrupoInscritos, hg]
    · exact find?_map_increment db.grupos c g hg

/-- A database whose only group is exactly at capacity (30/30), for C2. -/
def dbFull : DB :=
  { estudiantes := [], periodos := [],
    grupos := [⟨"G1MAT207", "MAT207", 30, 30⟩],
    horarios := [], inscripciones := [], detalles := [] }

/-- C2 counterexample to the original claim: calling the counter-commit
operation on a group already at capacity does not fail with a
capacity-exhausted error and does not leave the counter unchanged — it
succeeds and pushes the counter to 31 over a capacity of 30. -/
theorem c2_counterexample_increment_at_capacity :
    dbFull.grupos = [⟨"G1MAT207", "MAT207", 30, 30⟩] ∧
    incrementGrupoInscritos dbFull "G1MAT207" =
      .ok { dbFull with grupos := [⟨"G1MAT207", "MAT207", 30, 31⟩] } :=
  ⟨rfl, rfl⟩

/-- A database with one group that has spare capacity (29/30), for the C2
witness. -/
def dbSpare : DB :=
  { estudiantes := [], periodos := [],
    grupos := [⟨"G1MAT207", "MAT207", 30, 29⟩],
    horarios := [], inscripciones := [], detalles := [] }

/-- Witness for C2 at concrete databases: validation rejects the full group
with `GrupoSinCupo`, passes the group with spare capacity, and the increment
bumps the counter by one. -/
theorem c2_capacity_check_location_witness :
    validateGruposDisponibilidad dbFull ["G1MAT207"] =
      some (.grupoSinCupo "G1MAT207" 30 30) ∧
    (∀ c ∈ ["G1MAT207"], ∃ g, findGrupo dbSpare c = some g ∧
      g.inscritos_actuales < g.cupo) ∧
    (∃ db', incrementGrupoInscritos dbSpare "G1MAT207" = .ok db' ∧
      findGrupo db' "G1MAT207" = some ⟨"G1MAT207", "MAT207", 30, 30⟩) :=
  ⟨c2_capacity_check_location.2.1 dbFull "G1MAT207" ⟨"G1MAT207", "MAT207", 30, 30⟩
     rfl (by decide),
   c2_capacity_check_location.1 dbSpare ["G1MAT207"] rfl,
   c2_capacity_check_location.2.2 dbSpare "G1MAT207" ⟨"G1MAT207", "MAT207", 30, 29⟩ rfl⟩

/-! ### Materia uniqueness and the single-group enrollment flow
(`app/tasks.py`). -/

/-- The `(codigo_grupo, sigla_materia)` rows for the requested group codes
(`SELECT Grupo.codigo_grupo, Grupo.sigla_materia WHERE codigo_grupo IN …`). -/
def gruposMateriasOf (db : DB) (codigos : List String) : List (String × String) :=
  (db.grupos.filter (fun g => codigos.contains g.codigo_grupo)).map
    (fun g => (g.codigo_grupo, g.sigla_materia))

/-- The loop of `_validate_no_duplicate_materias` with the `materias_vistas`
dict carried as an association list `(sigla, grupo)`. -/
def validateNoDuplicateMateriasAux : List (String × String) → List (String × String) →
    Option DomainError
  | _, [] => none
  | vistas, (cg, sm) :: rest =>
    match vistas.find? (fun v => v.1 == sm) with
    | some v => some (.grupoDuplicado cg sm v.2)
    | none => validateNoDuplicateMateriasAux ((sm, cg) :: vistas) rest

/-- `_validate_no_duplicate_materias`: fail with `GrupoDuplicadoException` on
the first group whose materia was already seen in the request. -/
def validateNoDuplicateMaterias (db : DB) (codigos : List String) : Option DomainError :=
  validateNoDuplicateMateriasAux [] (gruposMateriasOf db codigos)

/-- Group codes the student holds in inscriptions of periods with estado
`ACTIVO` (first query of `_validate_horario_conflicto_individual`). -/
def gruposExistentesActivos (db : DB) (ra : String) : List String :=
  (db.detalles.filter (fun d =>
    db.inscripciones.any (fun i =>
      (i.codigo_inscripcion == d.codigo_inscripcion) &&
      (i.registro_academico == ra) &&
      db.periodos.any (fun p => (p.codigo_periodo == i.codigo_periodo) &&
        (p.estado == "ACTIVO"))))).map (fun d => d.codigo_grupo)

/-- `SELECT Grupo, Horario JOIN Horario WHERE codigo_grupo IN codigos`. -/
def gruposHorariosIn (db : DB) (codigos : List String) : List GrupoHorario :=
  (db.grupos.filter (fun g => codigos.contains g.codigo_grupo)).flatMap (fun g =>
    (db.horarios.filter (fun h => h.1 == g.codigo_grupo)).map (fun h =>
      { codigo_grupo := g.codigo_grupo, horario := h.2 }))

/-- Conflict loop of `_validate_horario_conflicto_individual`: skip the new
group's own rows, skip rows with disjoint day sets, and fail with the first
existing group whose interval overlaps. -/
def findConflictIndividual (nuevo : GrupoHorario) : List GrupoHorario → Option String
  | [] => none
  | gh :: rest =>
    if gh.codigo_grupo == nuevo.codigo_grupo then
      findConflictIndividual nuevo rest
    else if !(diasComunes nuevo.horario gh.horario) then
      findConflictIndividual nuevo rest
    else if horariosSeSolapan nuevo.horario.hora_inicio nuevo.horario.hora_fin
        gh.horario.hora_inicio gh.horario.hora_fin then
      some gh.codigo_grupo
    else
      findConflictIndividual nuevo rest

/-- `_validate_horario_conflicto_individual` (the `codigo_periodo` argument is
accepted but unused by the source, which scans all `ACTIVO` periods). -/
def validateHorarioConflictoIndividual (db : DB) (ra : String) (_codigoPeriodo : String)
    (nuevoGrupo : String) : Option DomainError :=
  let gruposExistentes := gruposExistentesActivos db ra
  if gruposExistentes.isEmpty then none
  else
    let ghs := gruposHorariosIn db (gruposExistentes ++ [nuevoGrupo])
    match ghs.find? (fun gh => gh.codigo_grupo == nuevoGrupo) with
    | none => some (.grupoNoEncontrado nuevoGrupo)
    | some nuevo =>
      match findConflictIndividual nuevo ghs with
      | some g => some (.conflictoHorario g)
      | none => none

/-- Siglas of the materias the student is already enrolled in for the period
(`SELECT Grupo.sigla_materia FROM DetalleInscripcion JOIN Inscripcion JOIN
Grupo WHERE registro_academico, codigo_periodo`). -/
def materiasInscritas (db : DB) (ra periodo : String) : List String :=
  (db.detalles.filter (fun d =>
    db.inscripciones.any (fun i =>
      (i.codigo_inscripcion == d.codigo_inscripcion) &&
      (i.registro_academico == ra) && (i.codigo_periodo == periodo)))).filterMap
    (fun d => (findGrupo db d.codigo_grupo).map (fun g => g.sigla_materia))

/-- Whether a detail row already links the student's inscription for the
period to this group. -/
def hasDetalleForGrupo (db : DB) (ra periodo grupo : String) : Bool :=
  db.detalles.any (fun d =>
    (d.codigo_grupo == grupo) &&
    db.inscripciones.any (fun i =>
      (i.codigo_inscripcion == d.codigo_inscripcion) &&
      (i.registro_academico == ra) && (i.codigo_periodo == periodo)))

structure InscriptionData where
  registro_academico : String
  codigo_periodo : String
  codigo_inscripcion : Option String := none
deriving DecidableEq, Repr

structure AddGroupOutput where
  codigo_inscripcion : String
  codigo_detalle : String
  grupo : String
  fecha_inscripcion : String
deriving DecidableEq, Repr

/-- `_add_group_to_inscription_async`: validate student, period, group
capacity, materia uniqueness, schedule and existing detail; then reuse or
create the inscription header, insert the detail row, increment the group
counter and commit.  Any raised error triggers `db.rollback()`, so the error
branch carries no new state (the caller keeps the original `DB`).  Freshly
generated codes (`uuid4`-based) and `date.today()` are passed explicitly. -/
def addGroupToInscriptionAsync (db : DB) (data : InscriptionData) (grupoCodigo : String)
    (freshInscripcion freshDetalle today : String) :
    Except DomainError (DB × AddGroupOutput) :=
  let codigoInscripcion0 :=
    match data.codigo_inscripcion with
    | some s => if s = "" then freshInscripcion else s
    | none => freshInscripcion
  match findEstudiante db data.registro_academico with
  | none => .error (.estudianteNoEncontrado data.registro_academico)
  | some estudiante =>
    if estudiante.estado_academico == "BLOQUEADO" then
      .error (.estudianteBloqueado data.registro_academico)
    else
      match findPeriodo db data.codigo_periodo with
      | none => .error (.periodoNoEncontrado data.codigo_periodo)
      | some periodo =>
        if periodo.estado != "ACTIVO" then
          .error (.periodoInactivo data.codigo_periodo periodo.estado)
        else
          match validateGruposDisponibilidad db [grupoCodigo] with
          | some e => .error e
          | none =>
            match findGrupo db grupoCodigo with
            | none => .error (.grupoNoEncontrado grupoCodigo)
            | some grupoActual =>
              if (materiasInscritas db data.registro_academico
                  data.codigo_periodo).contains grupoActual.sigla_materia then
                .error (.grupoDuplicado data.registro_academico grupoCodigo
                  data.codigo_periodo)
              else
                match validateHorarioConflictoIndividual db data.registro_academico
                    data.codigo_periodo grupoCodigo with
                | some e => .error e
                | none =>
                  if hasDetalleForGrupo db data.registro_academico data.codigo_periodo
                      grupoCodigo then
                    .error (.grupoDuplicado data.registro_academico grupoCodigo
                      data.codigo_periodo)
                  else
                    let pair : DB × String :=
                      match findInscripcion db data.registro_academico
                          data.codigo_periodo with
                      | some i => (db, i.codigo_inscripcion)
                      | none =>
                        ({ db with inscripciones := db.inscripciones ++
                            [{ codigo_inscripcion := codigoInscripcion0,
                               registro_academico := data.registro_academico,
                               codigo_periodo := data.codigo_periodo }] },
                         codigoInscripcion0)
                    let db2 := { pair.1 with detalles := pair.1.detalles ++
                        [{ codigo_detalle := freshDetalle,
                           codigo_inscripcion := pair.2,
                           codigo_grupo := grupoCodigo }] }
                    match incrementGrupoInscritos db2 grupoCodigo with
                    | .error e => .error e
                    | .ok db3 =>
                      .ok (db3, { codigo_inscripcion := pair.2,
                                  codigo_detalle := freshDetalle,
                                  grupo := grupoCodigo,
                                  fecha_inscripcion := today })

/-- A Celery task result dict.  `data` is populated only by the `SUCCESS`
branch; the `error` field carries `str(exc)`, modelled as the raised
exception itself. -/
structure TaskResult where
  status : String
  message : String
  grupo : Option String := none
  data : Option AddGroupOutput := none
  error : Option DomainError := none
deriving DecidableEq, Repr

/-- `create_single_group_inscription_task`: run
`_add_group_to_inscription_async`; on success return a `SUCCESS` dict with
the enrollment data; each domain exception — and any other exception, via the
final `except Exception` — is caught and mapped to an ordinary `ERROR` result
dict, so the task returns normally on every input.  An exception rolls the
session back, leaving the database unchanged. -/
def createSingleGroupInscriptionTask (db : DB) (data : InscriptionData)
    (grupoCodigo freshInscripcion freshDetalle today : String) : DB × TaskResult :=
  match addGroupToInscriptionAsync db data grupoCodigo freshInscripcion freshDetalle today with
  | .ok (db', out) =>
    (db', { status := "SUCCESS",
            message := "Inscripción para grupo " ++ grupoCodigo ++ " creada exitosamente",
            grupo := some grupoCodigo,
            data := some out })
  | .error e =>
    (db,
     match e with
     | .grupoDuplicado _ _ _ =>
       { status := "ERROR",
         message := "El estudiante ya está inscrito en el grupo " ++ grupoCodigo ++
           " en el periodo " ++ data.codigo_periodo,
         error := some e }
     | .estudianteNoEncontrado _ =>
       { status := "ERROR",
         message := "Estudiante no encontrado: " ++ data.registro_academico,
         error := some e }
     | .estudianteBloqueado _ =>
       { status := "ERROR",
         message := "Estudiante bloqueado: " ++ data.registro_academico,
         error := some e }
     | .periodoNoEncontrado _ =>
       { status := "ERROR",
         message := "Periodo académico no encontrado: " ++ data.codigo_periodo,
         error := some e }
     | .periodoInactivo _ _ =>
       { status := "ERROR",
         message := "Periodo académico inactivo: " ++ data.codigo_periodo,
         error := some e }
     | _ =>
       { status := "ERROR",
         message := "Error inesperado al inscribir grupo " ++ grupoCodigo,
         error := some e })

lemma validateNoDuplicateMateriasAux_none_iff :
    ∀ (pairs vistas : List (String × String)),
    validateNoDuplicateMateriasAux vistas pairs = none ↔
      ((pairs.map Prod.snd).Nodup ∧
       ∀ sm ∈ pairs.map Prod.snd, sm ∉ vistas.map Prod.fst) := by
  intro pairs
  induction pairs with
  | nil =>
    intro vistas
    simp [validateNoDuplicateMateriasAux]
  | cons p rest ih =>
    intro vistas
    rcases p with ⟨cg, sm⟩
    simp only [List.map_cons]
    rcases hfind : vistas.find? (fun v => v.1 == sm) with _ | v
    · have hsm : sm ∉ vistas.map Prod.fst := by
        intro hmem
        rcases List.mem_map.mp hmem with ⟨⟨a, b⟩, hab, hfst⟩
        have hne := List.find?_eq_none.mp hfind ⟨a, b⟩ hab
        simp only [beq_iff_eq] at hne
        exact hne hfst
      rw [show validateNoDuplicateMateriasAux vistas ((cg, sm) :: rest) =
          validateNoDuplicateMateriasAux ((sm, cg) :: vistas) rest from by
        simp only [validateNoDuplicateMateriasAux, hfind]]
      rw [ih ((sm, cg) :: vistas)]
      constructor
      · rintro ⟨hnodup, hall⟩
        refine ⟨List.nodup_cons.mpr ⟨?_, hnodup⟩, ?_⟩
        · intro hmem
          exact (hall sm hmem) (List.mem_cons_self _ _)
        · intro x hx
          rcases List.mem_cons.mp hx with rfl | hx'
          · exact hsm
          · intro hvmem
            exact (hall x hx') (List.mem_cons_of_mem _ hvmem)
      · rintro ⟨hnodup, hall⟩
        obtain ⟨hsm2, hnodup'⟩ := List.nodup_cons.mp hnodup
        refine ⟨hnodup', ?_⟩
        intro x hx
        simp only [List.map_cons, List.mem_cons]
        rintro (rfl | hv)
        · exact hsm2 hx
        · exact (hall x (List.mem_cons_of_mem _ hx)) hv
    · rw [show validateNoDuplicateMateriasAux vistas ((cg, sm) :: rest) =
          some (.grupoDuplicado cg sm v.2) from by
        simp only [validateNoDuplicateMateriasAux, hfind]]
      constructor
      · intro h; cases h
      · rintro ⟨-, hall⟩
        exfalso
        have hv : (v.1 == sm) = true := (List.find?_eq_some.mp hfind).1
        have hvmem : v ∈ vistas := List.mem_of_find?_eq_some hfind
        have hsmv : sm ∈ vistas.map Prod.fst := by
          have h1 : v.1 = sm := by simpa using hv
          exact h1 ▸ List.mem_map.mpr ⟨v, hvmem, rfl⟩
        exact (hall sm (List.mem_cons_self _ _)) hsmv

lemma task_error_shape (db : DB) (data : InscriptionData)
    (g fi fd today : String) (e : DomainError)
    (hadd : addGroupToInscriptionAsync db data g fi fd today = .error e) :
    (createSingleGroupInscriptionTask db data g fi fd today).2.status = "ERROR" ∧
    (createSingleGroupInscriptionTask db data g fi fd today).2.error = some e ∧
    (createSingleGroupInscriptionTask db data g fi fd today).2.data = none ∧
    (createSingleGroupInscriptionTask db data g fi fd today).1 = db := by
  cases e <;> simp [createSingleGroupInscriptionTask, hadd]

lemma task_ok_shape (db : DB) (data : InscriptionData)
    (g fi fd today : String) (db' : DB) (out : AddGroupOutput)
    (hadd : addGroupToInscriptionAsync db data g fi fd today = .ok (db', out)) :
    (createSingleGroupInscriptionTask db data g fi fd today).2.status = "SUCCESS" ∧
    (createSingleGroupInscriptionTask db data g fi fd today).2.data = some out ∧
    (createSingleGroupInscriptionTask db data g fi fd today).1 = db' := by
  simp [createSingleGroupInscriptionTask, hadd]

/-- C9: within one request, `_validate_no_duplicate_materias` passes exactly
when the requested groups' materias are pairwise distinct (failing with
`GrupoDuplicadoException` otherwise); in the single-group flow, a group whose
materia the student already holds in the period fails with
`GrupoDuplicadoException`; and any task whose result is `ERROR` leaves the
detail rows unchanged (exceptions roll the transaction back before commit). -/
theorem c9_duplicate_materia :
    (∀ (db : DB) (codigos : List String),
        validateNoDuplicateMaterias db codigos = none ↔
          ((gruposMateriasOf db codigos).map Prod.snd).Nodup)
  ∧ (∀ (db : DB) (data : InscriptionData) (g fi fd today : String)
        (est : Estudiante) (per : PeriodoAcademico) (grupoActual : Grupo),
        findEstudiante db data.registro_academico = some est →
        est.estado_academico ≠ "BLOQUEADO" →
        findPeriodo db data.codigo_periodo = some per →
        per.estado = "ACTIVO" →
        validateGruposDisponibilidad db [g] = none →
        findGrupo db g = some grupoActual →
        grupoActual.sigla_materia ∈
          materiasInscritas db data.registro_academico data.codigo_periodo →
        addGroupToInscriptionAsync db data g fi fd today =
          .error (.grupoDuplicado data.registro_academico g data.codigo_periodo))
  ∧ (∀ (db : DB) (data : InscriptionData) (g fi fd today : String),
        (createSingleGroupInscriptionTask db data g fi fd today).2.status = "ERROR" →
        (createSingleGroupInscriptionTask db data g fi fd today).1.detalles =
          db.detalles) := by
  refine ⟨?_, ?_, ?_⟩
  · intro db codigos
    unfold validateNoDuplicateMaterias
    rw [validateNoDuplicateMateriasAux_none_iff]
    simp
  · intro db data g fi fd today est per grupoActual hest hblq hper hact hval hgrupo hmem
    have hb1 : (est.estado_academico == "BLOQUEADO") = false := by
      simp [hblq]
    have hb2 : (per.estado != "ACTIVO") = false := by
      simp [bne, hact]
    have hb3 : ((materiasInscritas db data.registro_academico
        data.codigo_periodo).contains grupoActual.sigla_materia) = true :=
      List.elem_iff.mpr hmem
    simp [addGroupToInscriptionAsync, hest, hb1, hper, hb2, hval, hgrupo, hb3, hmem]
  · intro db data g fi fd today hstat
    cases hadd : addGroupToInscriptionAsync db data g fi fd today with
    | error e =>
      rw [(task_error_shape db data g fi fd today e hadd).2.2.2]
    | ok p =>
      exfalso
      obtain ⟨db', out⟩ := p
      have := (task_ok_shape db data g fi fd today db' out hadd).1
      rw [hstat] at this
      exact absurd this (by decide)

/-- Student, period and groups for the C9 witness: RA0002 already holds
`G1MAT207` (materia `MAT207`) in period 1-2025 and requests `G2MAT207` of the
same materia. -/
def dbW : DB :=
  { estudiantes := [⟨"RA0002", "ACTIVO"⟩],
    periodos := [⟨"1-2025", "ACTIVO"⟩],
    grupos := [⟨"G1MAT207", "MAT207", 30, 10⟩, ⟨"G2MAT207", "MAT207", 30, 5⟩],
    horarios := [],
    inscripciones := [⟨"I250101AAA", "RA0002", "1-2025"⟩],
    detalles := [⟨"D250101AAA", "I250101AAA", "G1MAT207"⟩] }

def dataW : InscriptionData :=
  { registro_academico := "RA0002", codigo_periodo := "1-2025" }

/-- Witness for C9 at the concrete database: the same-materia request fails
with `GrupoDuplicado` and detail rows are unchanged on `ERROR`. -/
theorem c9_duplicate_materia_witness :
    addGroupToInscriptionAsync dbW dataW "G2MAT207" "I250102BBB" "D250102BBB" "2025-01-02" =
      .error (.grupoDuplicado "RA0002" "G2MAT207" "1-2025") ∧
    (createSingleGroupInscriptionTask dbW dataW "G2MAT207" "I250102BBB" "D250102BBB"
      "2025-01-02").1.detalles = dbW.detalles :=
  ⟨c9_duplicate_materia.2.1 dbW dataW "G2MAT207" "I250102BBB" "D250102BBB" "2025-01-02"
     ⟨"RA0002", "ACTIVO"⟩ ⟨"1-2025", "ACTIVO"⟩ ⟨"G2MAT207", "MAT207", 30, 5⟩
     (by decide) (by decide) (by decide) (by decide) (by decide) (by decide) (by decide),
   c9_duplicate_materia.2.2 dbW dataW "G2MAT207" "I250102BBB" "D250102BBB" "2025-01-02"
     (by decide)⟩

/-- C10: the single-group enrollment task always terminates with an ordinary
result dict: the status is `SUCCESS` or `ERROR`; every domain failure raised
by `_add_group_to_inscription_async` is caught and returned as an `ERROR`
dict carrying the error, with no enrollment data and the database rolled
back; and enrollment data is present exactly in the `SUCCESS` branch. -/
theorem c10_single_group_task_never_raises :
    (∀ (db : DB) (data : InscriptionData) (g fi fd today : String),
        (createSingleGroupInscriptionTask db data g fi fd today).2.status = "SUCCESS" ∨
        (createSingleGroupInscriptionTask db data g fi fd today).2.status = "ERROR")
  ∧ (∀ (db : DB) (data : InscriptionData) (g fi fd today : String) (e : DomainError),
        addGroupToInscriptionAsync db data g fi fd today = .error e →
        (createSingleGroupInscriptionTask db data g fi fd today).2.status = "ERROR" ∧
        (createSingleGroupInscriptionTask db data g fi fd today).2.error = some e ∧
        (createSingleGroupInscriptionTask db data g fi fd today).2.data = none ∧
        (createSingleGroupInscriptionTask db data g fi fd today).1 = db)
  ∧ (∀ (db : DB) (data : InscriptionData) (g fi fd today : String),
        ((createSingleGroupInscriptionTask db data g fi fd today).2.data).isSome ↔
        (createSingleGroupInscriptionTask db data g fi fd today).2.status = "SUCCESS") := by
  refine ⟨?_, ?_, ?_⟩
  · intro db data g fi fd today
    cases hadd : addGroupToInscriptionAsync db data g fi fd today with
    | error e => exact Or.inr (task_error_shape db data g fi fd today e hadd).1
    | ok p =>
      obtain ⟨db', out⟩ := p
      exact Or.inl (task_ok_shape db data g fi fd today db' out hadd).1
  · intro db data g fi fd today e hadd
    exact task_error_shape db data g fi fd today e hadd
  · intro db data g fi fd today
    cases hadd : addGroupToInscriptionAsync db data g fi fd today with
    | error e =>
      obtain ⟨hs, -, hd, -⟩ := task_error_shape db data g fi fd today e hadd
      rw [hs, hd]
      constructor
      · intro h; cases h
      · intro h; exact absurd h (by decide)
    | ok p =>
      obtain ⟨db', out⟩ := p
      obtain ⟨hs, hd, -⟩ := task_ok_shape db data g fi fd today db' out hadd
      rw [hs, hd]
      simp

/-- Empty database for the C10 witness. -/
def dbEmpty : DB :=
  { estudiantes := [], periodos := [], grupos := [], horarios := [],
    inscripciones := [], detalles := [] }

/-- Witness for C10: with no matching student, the task returns a normal
`ERROR` dict (student-not-found), no data, database unchanged. -/
theorem c10_single_group_task_never_raises_witness :
    (createSingleGroupInscriptionTask dbEmpty dataW "G9" "I1" "D1" "t").2.status = "ERROR" ∧
    (createSingleGroupInscriptionTask dbEmpty dataW "G9" "I1" "D1" "t").2.error =
      some (.estudianteNoEncontrado "RA0002") ∧
    (createSingleGroupInscriptionTask dbEmpty dataW "G9" "I1" "D1" "t").2.data = none ∧
    (createSingleGroupInscriptionTask dbEmpty dataW "G9" "I1" "D1" "t").1 = dbEmpty :=
  c10_single_group_task_never_raises.2.1 dbEmpty dataW "G9" "I1" "D1" "t"
    (.estudianteNoEncontrado "RA0002") rfl

/-! ### Dispatcher of `POST /queue/inscripciones/async-by-groups`
(`create_inscription_async_by_groups`, `app/routers/queue.py`).  The fresh
`uuid.uuid4()` draws made by one call are passed in explicitly as hex
strings. -/

structure InscripcionCreate where
  registro_academico : String
  codigo_periodo : String
  grupos : List String
deriving DecidableEq, Repr

structure ByGroupsBaseData where
  registro_academico : String
  codigo_periodo : String
  correlation_id : String
  idempotency_key : String
deriving DecidableEq, Repr

/-- The `base_data` dict the endpoint attaches to every per-group task:
`correlation_id = "corr_" + uuid4().hex[:8]` and
`idempotency_key = "inscription:" + uuid4().hex` — the key is built from a
fresh random UUID, not from the request fields. -/
def byGroupsBaseData (req : InscripcionCreate) (correlationUuidHex keyUuidHex : String) :
    ByGroupsBaseData :=
  { registro_academico := req.registro_academico,
    codigo_periodo := req.codigo_periodo,
    correlation_id := "corr_" ++ correlationUuidHex,
    idempotency_key := "inscription:" ++ keyUuidHex }

/-- The request of spec scenario S1, repeated twice for C1. -/
def reqC1 : InscripcionCreate :=
  { registro_academico := "RA0001", codigo_periodo := "1-2025", grupos := ["G-MAT101-A"] }

/-- C1: the top-level idempotency key generated by
`create_inscription_async_by_groups` is `"inscription:" + uuid4().hex` — it
depends only on the per-call random UUID and on none of (student, groups,
period) — so two calls with identical `(student, period, sorted(groups))`
draw distinct UUIDs and carry distinct idempotency keys: the code does not
derive the key from the request tuple as claimed. -/
theorem c1_idempotency_key_is_random :
    (∀ (req : InscripcionCreate) (c k : String),
        (byGroupsBaseData req c k).idempotency_key = "inscription:" ++ k)
  ∧ (byGroupsBaseData reqC1 "c0ffee01" "aaaa000011112222").idempotency_key ≠
      (byGroupsBaseData reqC1 "c0ffee02" "bbbb000011112222").idempotency_key
  ∧ (∀ (req req2 : InscripcionCreate) (c c2 k : String),
        (byGroupsBaseData req c k).idempotency_key =
        (byGroupsBaseData req2 c2 k).idempotency_key) :=
  ⟨fun _ _ _ => rfl, by decide, fun _ _ _ _ _ => rfl⟩

end Insc
